import Mathlib

/-!
Verification of the spatial-algebra core (`libs/nox/src/spatial.rs`) and the
Monte Carlo driver boundary of the elodin repository, as a shallow embedding
over exact real arithmetic.  Spatial vectors are embedded as functions
`Fin n → ℝ`, matching the source's packed `Vector<T, n>` storage, and every
operation mirrors the corresponding Rust implementation statement by
statement.
-/

namespace Elodin

noncomputable section

/-- An `n`-component real vector, the embedding of `Vector<T, n>`. -/
def Vec (n : ℕ) : Type := Fin n → ℝ

/-- Elementwise addition of vectors. -/
def vadd {n : ℕ} (a b : Vec n) : Vec n := fun i => a i + b i

/-- Elementwise subtraction of vectors. -/
def vsub {n : ℕ} (a b : Vec n) : Vec n := fun i => a i - b i

/-- Elementwise negation of a vector. -/
def vneg {n : ℕ} (a : Vec n) : Vec n := fun i => -(a i)

/-- Scalar multiplication of a vector. -/
def vscale {n : ℕ} (c : ℝ) (a : Vec n) : Vec n := fun i => c * a i

/-- Elementwise product of two vectors (the `Vector * Vector` of the source). -/
def vmulElem {n : ℕ} (a b : Vec n) : Vec n := fun i => a i * b i

/-- Elementwise quotient of two vectors (the `Vector / Vector` of the source). -/
def vdivElem {n : ℕ} (a b : Vec n) : Vec n := fun i => a i / b i

/-- Division of a vector by a scalar, elementwise. -/
def vdivScalar {n : ℕ} (a : Vec n) (c : ℝ) : Vec n := fun i => a i / c

/-- The all-zeros vector, the embedding of `Tensor::zeros`. -/
def vzero (n : ℕ) : Vec n := fun _ => 0

/-- Concatenation of two vectors along the single axis, the embedding of
`Tensor::concat`. -/
def vcat {m n : ℕ} (a : Vec m) (b : Vec n) : Vec (m + n) :=
  fun i => if h : i.1 < m then a ⟨i.1, h⟩ else b ⟨i.1 - m, by omega⟩

/-- Fixed slice of length `m` starting at offset `off`, the embedding of
`Tensor::fixed_slice(&[off])`. -/
def vslice {n : ℕ} (off m : ℕ) (h : off + m ≤ n) (v : Vec n) : Vec m :=
  fun i => v ⟨off + i.1, by omega⟩

/-- Convenience constructor for a 3-vector from its components. -/
def v3 (x y z : ℝ) : Vec 3 :=
  fun i => if i.1 = 0 then x else if i.1 = 1 then y else z

/-- Convenience constructor for a 1-vector, the embedding of
`Scalar::reshape::<Const<1>>`. -/
def v1 (x : ℝ) : Vec 1 := fun _ => x

/-- The 3-dimensional cross product, the `Vector::cross` consumed from the
backend. -/
def cross3 (a b : Vec 3) : Vec 3 :=
  v3 (a 1 * b 2 - a 2 * b 1) (a 2 * b 0 - a 0 * b 2) (a 0 * b 1 - a 1 * b 0)

lemma vcat_left {m n : ℕ} (a : Vec m) (b : Vec n) (i : Fin (m + n))
    (h : i.1 < m) : vcat a b i = a ⟨i.1, h⟩ := dif_pos h

lemma vcat_right {m n : ℕ} (a : Vec m) (b : Vec n) (i : Fin (m + n))
    (h : ¬ i.1 < m) : vcat a b i = b ⟨i.1 - m, by omega⟩ := dif_neg h

lemma v3_zero (x y z : ℝ) : v3 x y z 0 = x := rfl

lemma v3_one (x y z : ℝ) : v3 x y z 1 = y := rfl

lemma v3_two (x y z : ℝ) : v3 x y z 2 = z := rfl

/-- A quaternion with component storage order `[x, y, z, w]` (vector part
then scalar part), matching the coordinate order of the source's
`Quaternion(Vector<T, 4>)`. -/
structure Quat where
  x : ℝ
  y : ℝ
  z : ℝ
  w : ℝ

/-- The packed 4-vector view of a quaternion, in storage order. -/
def Quat.toVec (q : Quat) : Vec 4 :=
  fun i => if i.1 = 0 then q.x else if i.1 = 1 then q.y
           else if i.1 = 2 then q.z else q.w

/-- Reads a quaternion out of a packed 4-vector, in storage order. -/
def Quat.ofVec (v : Vec 4) : Quat := ⟨v 0, v 1, v 2, v 3⟩

/-- Modelled from the spec: the quaternion product used by the spatial
algebra.  The `Quaternion` implementation lives outside the provided source
slice; the spec calls for rotation composition by the quaternion (Hamilton)
product, which this is. -/
def Quat.mul (a b : Quat) : Quat :=
  ⟨a.w * b.x + a.x * b.w + a.y * b.z - a.z * b.y,
   a.w * b.y + a.y * b.w + a.z * b.x - a.x * b.z,
   a.w * b.z + a.z * b.w + a.x * b.y - a.y * b.x,
   a.w * b.w - a.x * b.x - a.y * b.y - a.z * b.z⟩

/-- Modelled from the spec: componentwise quaternion addition, the
`Quaternion<T>: Add` bound required by the transform-plus-motion update. -/
def Quat.add (a b : Quat) : Quat := ⟨a.x + b.x, a.y + b.y, a.z + b.z, a.w + b.w⟩

/-- Modelled from the spec: scaling a quaternion by a real number. -/
def Quat.smul (c : ℝ) (q : Quat) : Quat := ⟨c * q.x, c * q.y, c * q.z, c * q.w⟩

/-- Modelled from the spec: the quaternion conjugate. -/
def Quat.conj (q : Quat) : Quat := ⟨-q.x, -q.y, -q.z, q.w⟩

/-- Squared norm of a quaternion. -/
def Quat.normSq (q : Quat) : ℝ := q.x ^ 2 + q.y ^ 2 + q.z ^ 2 + q.w ^ 2

/-- Norm of a quaternion. -/
def Quat.norm (q : Quat) : ℝ := Real.sqrt q.normSq

/-- Modelled from the spec: `Quaternion::normalize`, division by the norm,
as required by the first-order orientation update
`normalize(orientation + 0.5 * omega * orientation)`. -/
def Quat.normalize (q : Quat) : Quat := Quat.smul (q.norm)⁻¹ q

/-- Modelled from the spec: the identity quaternion. -/
def Quat.identity : Quat := ⟨0, 0, 0, 1⟩

/-- A pure (zero scalar part) quaternion built from a 3-vector, the
`Quaternion(v.concat(zero))` packing used in the integration update. -/
def Quat.pure (v : Vec 3) : Quat := ⟨v 0, v 1, v 2, 0⟩

/-- Modelled from the spec: `Quaternion::from_axis_angle`, the axis-angle
quaternion `(axis * sin(angle / 2), cos(angle / 2))`. -/
def Quat.fromAxisAngle (axis : Vec 3) (angle : ℝ) : Quat :=
  ⟨axis 0 * Real.sin (angle / 2), axis 1 * Real.sin (angle / 2),
   axis 2 * Real.sin (angle / 2), Real.cos (angle / 2)⟩

/-- Modelled from the spec: rotation of a 3-vector by a quaternion
(`Quaternion * Vector<T, 3>`), the sandwich product `q v q*`. -/
def Quat.rotate (q : Quat) (v : Vec 3) : Vec 3 :=
  let p := (q.mul (Quat.pure v)).mul q.conj
  v3 p.x p.y p.z

/-- A spatial transform: a packed 7-vector holding an orientation quaternion
(components 0–3) followed by a position (components 4–6).  Embeds
`SpatialTransform<T>` of `spatial.rs`. -/
structure SpatialTransform where
  inner : Vec 7

/-- A spatial motion: a packed 6-vector holding an angular velocity
(components 0–2) followed by a linear velocity (components 3–5).  Embeds
`SpatialMotion<T>`. -/
structure SpatialMotion where
  inner : Vec 6

/-- A spatial force: a packed 6-vector holding a torque (components 0–2)
followed by a linear force (components 3–5).  Embeds `SpatialForce<T>`. -/
structure SpatialForce where
  inner : Vec 6

/-- A spatial inertia: a packed 7-vector holding the diagonalized inertia
(components 0–2), the momentum (components 3–5) and the mass (component 6).
Embeds `SpatialInertia<T>`. -/
structure SpatialInertia where
  inner : Vec 7

/-- Embeds `SpatialTransform::new`: packs `angular.0.concat(linear)`. -/
def SpatialTransform.new (angular : Quat) (linear : Vec 3) : SpatialTransform :=
  ⟨vcat angular.toVec linear⟩

/-- Embeds `SpatialTransform::angular`: the quaternion at offset 0. -/
def SpatialTransform.angular (t : SpatialTransform) : Quat :=
  Quat.ofVec (vslice 0 4 (by omega) t.inner)

/-- Embeds `SpatialTransform::linear`: the 3-vector at offset 4. -/
def SpatialTransform.linear (t : SpatialTransform) : Vec 3 :=
  vslice 4 3 (by omega) t.inner

/-- Embeds `impl Mul for SpatialTransform`: rotation composed by the quaternion
product, translation rotated then added. -/
def SpatialTransform.mul (a b : SpatialTransform) : SpatialTransform :=
  SpatialTransform.new (a.angular.mul b.angular)
    (vadd a.linear (a.angular.rotate b.linear))

/-- Embeds `SpatialMotion::new`: packs `angular.concat(linear)`. -/
def SpatialMotion.new (angular linear : Vec 3) : SpatialMotion :=
  ⟨vcat angular linear⟩

/-- Embeds `SpatialMotion::angular`: the 3-vector at offset 0. -/
def SpatialMotion.angular (m : SpatialMotion) : Vec 3 :=
  vslice 0 3 (by omega) m.inner

/-- Embeds `SpatialMotion::linear`: the 3-vector at offset 3. -/
def SpatialMotion.linear (m : SpatialMotion) : Vec 3 :=
  vslice 3 3 (by omega) m.inner

/-- Embeds `SpatialMotion::zero`. -/
def SpatialMotion.zero : SpatialMotion := ⟨vzero 6⟩

/-- Embeds `SpatialMotion::cross`: the spatial-motion cross product. -/
def SpatialMotion.cross (a other : SpatialMotion) : SpatialMotion :=
  SpatialMotion.new (cross3 a.angular other.angular)
    (vadd (cross3 a.angular other.linear) (cross3 a.linear other.angular))

/-- Embeds `impl Add<SpatialMotion> for SpatialMotion`: componentwise addition of
the packed 6-vectors. -/
def SpatialMotion.add (a rhs : SpatialMotion) : SpatialMotion :=
  ⟨vadd a.inner rhs.inner⟩

/-- Embeds `SpatialForce::new`: packs `torque.concat(force)`. -/
def SpatialForce.new (torque force : Vec 3) : SpatialForce :=
  ⟨vcat torque force⟩

/-- Embeds `SpatialForce::torque`: the 3-vector at offset 0. -/
def SpatialForce.torque (f : SpatialForce) : Vec 3 :=
  vslice 0 3 (by omega) f.inner

/-- Embeds `SpatialForce::force`: the 3-vector at offset 3. -/
def SpatialForce.force (f : SpatialForce) : Vec 3 :=
  vslice 3 3 (by omega) f.inner

/-- Embeds `SpatialInertia::new`: packs `inertia.concat(momentum).concat(mass)`. -/
def SpatialInertia.new (inertia momentum : Vec 3) (mass : ℝ) : SpatialInertia :=
  ⟨vcat (vcat inertia momentum) (v1 mass)⟩

/-- Embeds `SpatialInertia::from_mass`: inertia diagonal equal to the mass on all
axes, zero momentum. -/
def SpatialInertia.from_mass (mass : ℝ) : SpatialInertia :=
  SpatialInertia.new (v3 mass mass mass) (vzero 3) mass

/-- Embeds `SpatialInertia::inertia_diag`: the 3-vector at offset 0. -/
def SpatialInertia.inertia_diag (I : SpatialInertia) : Vec 3 :=
  vslice 0 3 (by omega) I.inner

/-- Embeds `SpatialInertia::momentum`: the 3-vector at offset 3. -/
def SpatialInertia.momentum (I : SpatialInertia) : Vec 3 :=
  vslice 3 3 (by omega) I.inner

/-- Embeds `SpatialInertia::mass`: the scalar at offset 6. -/
def SpatialInertia.mass (I : SpatialInertia) : ℝ := I.inner 6

/-- Embeds `impl Mul<SpatialMotion> for SpatialInertia`: the forward dynamics
multiply `force = mass * v - momentum × ω`,
`torque = inertia_diag ∘ ω + momentum × v`. -/
def SpatialInertia.mulMotion (I : SpatialInertia) (rhs : SpatialMotion) :
    SpatialForce :=
  SpatialForce.new
    (vadd (vmulElem I.inertia_diag rhs.angular) (cross3 I.momentum rhs.linear))
    (vsub (vscale I.mass rhs.linear) (cross3 I.momentum rhs.angular))

/-- Embeds `impl Div<SpatialInertia> for SpatialForce`: acceleration via elementwise
divide, `ang = torque / inertia_diag`, `lin = force / mass`. -/
def SpatialForce.divInertia (f : SpatialForce) (rhs : SpatialInertia) :
    SpatialMotion :=
  SpatialMotion.new (vdivElem f.torque rhs.inertia_diag)
    (vdivScalar f.force rhs.mass)

/-- Embeds `impl Add<SpatialMotion> for SpatialTransform`: the first-order
integration step.  `half_omega = rhs.angular() / 2` becomes a pure
quaternion, the orientation is `normalize(q + half_omega * q)` and the
position is `linear + rhs.linear`. -/
def SpatialTransform.addMotion (t : SpatialTransform) (rhs : SpatialMotion) :
    SpatialTransform :=
  let half_omega : Vec 3 := vdivScalar rhs.angular 2
  let hoQ : Quat := Quat.ofVec (vcat half_omega (v1 0))
  let q := t.angular
  let angular := (q.add (hoQ.mul q)).normalize
  SpatialTransform.new angular (vadd t.linear rhs.linear)

/-! ### Unpacking lemmas: constructors followed by accessors -/

lemma transform_angular_new (q : Quat) (l : Vec 3) :
    (SpatialTransform.new q l).angular = q := rfl

lemma transform_linear_new (q : Quat) (l : Vec 3) :
    (SpatialTransform.new q l).linear = l := by
  funext i
  simp only [SpatialTransform.new, SpatialTransform.linear, vslice]
  rw [vcat_right _ _ _ (by simp only [Fin.val_mk]; omega)]
  congr 1
  exact Fin.ext (by simp)

lemma motion_angular_new (a l : Vec 3) :
    (SpatialMotion.new a l).angular = a := by
  funext i
  simp only [SpatialMotion.new, SpatialMotion.angular, vslice]
  rw [vcat_left _ _ _ (by simp only [Fin.val_mk]; omega)]
  congr 1
  exact Fin.ext (by simp)

lemma motion_linear_new (a l : Vec 3) :
    (SpatialMotion.new a l).linear = l := by
  funext i
  simp only [SpatialMotion.new, SpatialMotion.linear, vslice]
  rw [vcat_right _ _ _ (by simp only [Fin.val_mk]; omega)]
  congr 1
  exact Fin.ext (by simp)

lemma force_torque_new (t f : Vec 3) :
    (SpatialForce.new t f).torque = t := by
  funext i
  simp only [SpatialForce.new, SpatialForce.torque, vslice]
  rw [vcat_left _ _ _ (by simp only [Fin.val_mk]; omega)]
  congr 1
  exact Fin.ext (by simp)

lemma force_force_new (t f : Vec 3) :
    (SpatialForce.new t f).force = f := by
  funext i
  simp only [SpatialForce.new, SpatialForce.force, vslice]
  rw [vcat_right _ _ _ (by simp only [Fin.val_mk]; omega)]
  congr 1
  exact Fin.ext (by simp)

lemma inertia_diag_of_new (d m : Vec 3) (mass : ℝ) :
    (SpatialInertia.new d m mass).inertia_diag = d := by
  funext i
  simp only [SpatialInertia.new, SpatialInertia.inertia_diag, vslice]
  rw [vcat_left _ _ _ (by simp only [Fin.val_mk]; omega), vcat_left _ _ _ (by simp only [Fin.val_mk]; omega)]
  congr 1
  exact Fin.ext (by simp)

lemma inertia_momentum_new (d m : Vec 3) (mass : ℝ) :
    (SpatialInertia.new d m mass).momentum = m := by
  funext i
  simp only [SpatialInertia.new, SpatialInertia.momentum, vslice]
  rw [vcat_left _ _ _ (by simp only [Fin.val_mk]; omega), vcat_right _ _ _ (by simp only [Fin.val_mk]; omega)]
  congr 1
  exact Fin.ext (by simp)

lemma inertia_mass_new (d m : Vec 3) (mass : ℝ) :
    (SpatialInertia.new d m mass).mass = mass := rfl

lemma motion_ext_inner {a b : SpatialMotion} (h : a.inner = b.inner) :
    a = b := by cases a; cases b; simpa using h

lemma transform_ext_inner {a b : SpatialTransform}
    (h : a.inner = b.inner) : a = b := by cases a; cases b; simpa using h

lemma force_ext_inner {a b : SpatialForce} (h : a.inner = b.inner) :
    a = b := by cases a; cases b; simpa using h

lemma Quat.ext_comps {a b : Quat} (hx : a.x = b.x) (hy : a.y = b.y)
    (hz : a.z = b.z) (hw : a.w = b.w) : a = b := by
  cases a; cases b; simp_all

/-! ### Claim theorems -/

/-- Claim C9: construction and component access round-trip for every spatial
type: `SpatialTransform::new`, `SpatialForce::new`, `SpatialInertia::new` and
`SpatialMotion::new` followed by the corresponding accessors return the
given components unchanged — the 6- or 7-component packing loses no
information. -/
theorem claim9_construct_access_roundtrip
    (q : Quat) (l t f d mo a v : Vec 3) (mass : ℝ) :
    (SpatialTransform.new q l).angular = q ∧
    (SpatialTransform.new q l).linear = l ∧
    (SpatialForce.new t f).torque = t ∧
    (SpatialForce.new t f).force = f ∧
    (SpatialInertia.new d mo mass).inertia_diag = d ∧
    (SpatialInertia.new d mo mass).momentum = mo ∧
    (SpatialInertia.new d mo mass).mass = mass ∧
    (SpatialMotion.new a v).angular = a ∧
    (SpatialMotion.new a v).linear = v :=
  ⟨transform_angular_new q l, transform_linear_new q l,
   force_torque_new t f, force_force_new t f,
   inertia_diag_of_new d mo mass,
   inertia_momentum_new d mo mass, inertia_mass_new d mo mass,
   motion_angular_new a v, motion_linear_new a v⟩

/-- Claim C10: the spatial-motion cross product is antisymmetric — for all
spatial motions `a` and `b`, `a.cross(b)` is the componentwise negation of
`b.cross(a)` — and in particular `a.cross(a)` is the zero spatial motion. -/
theorem claim10_motion_cross_antisymmetric (a b : SpatialMotion) :
    (a.cross b).inner = vneg ((b.cross a).inner) ∧
    a.cross a = SpatialMotion.zero := by
  constructor
  · funext i
    rcases i with ⟨iv, hi⟩
    interval_cases iv <;>
      simp [SpatialMotion.cross, SpatialMotion.new, SpatialMotion.angular,
        SpatialMotion.linear, vcat, vneg, vadd, cross3, v3, vslice,
        show ((3 : Fin 6) : ℕ) = 3 from rfl, show ((4 : Fin 6) : ℕ) = 4 from rfl,
        show ((5 : Fin 6) : ℕ) = 5 from rfl] <;>
      ring
  · apply motion_ext_inner
    funext i
    rcases i with ⟨iv, hi⟩
    interval_cases iv <;>
      simp [SpatialMotion.cross, SpatialMotion.new, SpatialMotion.angular,
        SpatialMotion.linear, SpatialMotion.zero, vzero, vcat, vadd, cross3,
        v3, vslice, show ((3 : Fin 6) : ℕ) = 3 from rfl,
        show ((4 : Fin 6) : ℕ) = 4 from rfl,
        show ((5 : Fin 6) : ℕ) = 5 from rfl] <;>
      ring

/-! ### Quaternion norm lemmas for the integration update -/

lemma halfOmega_eq (w : Vec 3) :
    Quat.ofVec (vcat (vdivScalar w 2) (v1 0)) =
      Quat.smul (1 / 2) (Quat.pure w) := by
  have h : Quat.ofVec (vcat (vdivScalar w 2) (v1 0)) =
      ⟨w 0 / 2, w 1 / 2, w 2 / 2, 0⟩ := rfl
  rw [h]
  apply Quat.ext_comps <;> simp [Quat.smul, Quat.pure] <;> ring

lemma normSq_add_pure_mul (a b c : ℝ) (q : Quat) :
    (q.add ((⟨a, b, c, 0⟩ : Quat).mul q)).normSq =
      (1 + (a ^ 2 + b ^ 2 + c ^ 2)) * q.normSq := by
  simp only [Quat.add, Quat.mul, Quat.normSq]
  ring

lemma normSq_smul (c : ℝ) (q : Quat) :
    (Quat.smul c q).normSq = c ^ 2 * q.normSq := by
  simp only [Quat.smul, Quat.normSq]
  ring

lemma normSq_nonneg (q : Quat) : 0 ≤ q.normSq := by
  simp only [Quat.normSq]
  positivity

lemma normSq_normalize (q : Quat) (h : q.normSq ≠ 0) :
    q.normalize.normSq = 1 := by
  have hpos : 0 < q.normSq := lt_of_le_of_ne (normSq_nonneg q) (Ne.symm h)
  rw [Quat.normalize, normSq_smul, Quat.norm, inv_pow,
    Real.sq_sqrt hpos.le, inv_mul_cancel₀ h]

lemma norm_normalize (q : Quat) (h : q.normSq ≠ 0) : q.normalize.norm = 1 := by
  rw [Quat.norm, normSq_normalize q h, Real.sqrt_one]

lemma smul_one_eq (q : Quat) : Quat.smul 1 q = q := by
  apply Quat.ext_comps <;> simp [Quat.smul]

lemma normalize_of_normSq_one (q : Quat) (h : q.normSq = 1) :
    q.normalize = q := by
  rw [Quat.normalize, Quat.norm, h, Real.sqrt_one, inv_one, smul_one_eq]

lemma normSq_angular_addMotion (t : SpatialTransform) (m : SpatialMotion)
    (h : t.angular.normSq ≠ 0) : (t.addMotion m).angular.normSq = 1 := by
  simp only [SpatialTransform.addMotion]
  rw [transform_angular_new]
  apply normSq_normalize
  have hh : Quat.ofVec (vcat (vdivScalar m.angular 2) (v1 0)) =
      ⟨m.angular 0 / 2, m.angular 1 / 2, m.angular 2 / 2, 0⟩ := rfl
  rw [hh, normSq_add_pure_mul]
  have h1 : (0:ℝ) < 1 + ((m.angular 0 / 2) ^ 2 + (m.angular 1 / 2) ^ 2 +
      (m.angular 2 / 2) ^ 2) := by positivity
  have h2 : 0 < t.angular.normSq :=
    lt_of_le_of_ne (normSq_nonneg _) (Ne.symm h)
  exact ne_of_gt (mul_pos h1 h2)

lemma foldl_addMotion_normSq (ms : List SpatialMotion) :
    ∀ t : SpatialTransform, t.angular.normSq ≠ 0 → ms ≠ [] →
      ((ms.foldl SpatialTransform.addMotion t).angular.normSq) = 1 := by
  induction ms with
  | nil => intro t _ hne; exact absurd rfl hne
  | cons m rest ih =>
    intro t h _
    rw [List.foldl_cons]
    by_cases hr : rest = []
    · subst hr
      simpa using normSq_angular_addMotion t m h
    · exact ih (t.addMotion m)
        (by rw [normSq_angular_addMotion t m h]; norm_num) hr

/-- The spec's own formula for the first-order orientation update:
`normalize(orientation + 0.5 * angularVelocityAsPureQuaternion * orientation)`.
Stated from the spec's words, to be compared with the source's
`impl Add<SpatialMotion> for SpatialTransform`. -/
def specOrientationUpdate (q : Quat) (omega : Vec 3) : Quat :=
  (q.add ((Quat.smul (1 / 2) (Quat.pure omega)).mul q)).normalize

/-- Claim C1: for every spatial transform (orientation `q`, position `p`) and
every spatial motion (angular part `w`, linear part `v`), the sum
transform-plus-motion has orientation `normalize(q + 0.5 * pure(w) * q)` —
exactly the spec's first-order quaternion update — and position `p + v`. -/
theorem claim1_transform_plus_motion (t : SpatialTransform) (m : SpatialMotion) :
    (t.addMotion m).angular = specOrientationUpdate t.angular m.angular ∧
    (t.addMotion m).linear = vadd t.linear m.linear := by
  constructor
  · simp only [SpatialTransform.addMotion]
    rw [transform_angular_new, specOrientationUpdate, halfOmega_eq]
  · simp only [SpatialTransform.addMotion]
    rw [transform_linear_new]

/-- Claim C4: if a transform's orientation quaternion is nonzero, then after
adding any spatial motion the resulting orientation has norm within `1e-9`
of `1.0` (over exact arithmetic it is exactly `1`), and the invariant
persists over arbitrarily many successive pose updates. -/
theorem claim4_orientation_norm_invariant (t : SpatialTransform)
    (h : t.angular.normSq ≠ 0) :
    (∀ m : SpatialMotion, |(t.addMotion m).angular.norm - 1| ≤ 1e-9) ∧
    (∀ ms : List SpatialMotion, ms ≠ [] →
      |((ms.foldl SpatialTransform.addMotion t).angular.norm) - 1| ≤ 1e-9) := by
  constructor
  · intro m
    rw [Quat.norm, normSq_angular_addMotion t m h, Real.sqrt_one]
    norm_num
  · intro ms hne
    rw [Quat.norm, foldl_addMotion_normSq ms t h hne, Real.sqrt_one]
    norm_num

/-- Witness for C4 at a concrete transform and motion. -/
theorem claim4_witness :
    (SpatialTransform.new Quat.identity (v3 0 0 0)).angular.normSq ≠ 0 ∧
    |((SpatialTransform.new Quat.identity (v3 0 0 0)).addMotion
        (SpatialMotion.new (v3 1 2 3) (v3 4 5 6))).angular.norm - 1| ≤ 1e-9 := by
  have h : (SpatialTransform.new Quat.identity (v3 0 0 0)).angular.normSq ≠ 0 := by
    have e : (SpatialTransform.new Quat.identity (v3 0 0 0)).angular =
        Quat.identity := rfl
    rw [e]
    norm_num [Quat.normSq, Quat.identity]
  exact ⟨h, (claim4_orientation_norm_invariant _ h).1 _⟩

lemma new_angular_linear (t : SpatialTransform) :
    SpatialTransform.new t.angular t.linear = t := by
  apply transform_ext_inner
  funext i
  rcases i with ⟨iv, hi⟩
  interval_cases iv <;> rfl

lemma addMotion_zero (t : SpatialTransform) (h : t.angular.normSq = 1) :
    t.addMotion SpatialMotion.zero = t := by
  simp only [SpatialTransform.addMotion]
  have hq : Quat.ofVec (vcat (vdivScalar SpatialMotion.zero.angular 2) (v1 0)) =
      ⟨0 / 2, 0 / 2, 0 / 2, 0⟩ := rfl
  rw [hq]
  have hmul : (⟨0 / 2, 0 / 2, 0 / 2, 0⟩ : Quat).mul t.angular =
      ⟨0, 0, 0, 0⟩ := by
    apply Quat.ext_comps <;> simp [Quat.mul]
  rw [hmul]
  have hadd : t.angular.add ⟨0, 0, 0, 0⟩ = t.angular := by
    apply Quat.ext_comps <;> simp [Quat.add]
  rw [hadd, normalize_of_normSq_one _ h]
  have hlin : vadd t.linear SpatialMotion.zero.linear = t.linear := by
    funext i
    show t.linear i + 0 = t.linear i
    rw [add_zero]
  rw [hlin, new_angular_linear]

/-- Claim C5: with zero velocity the state is a fixed point — adding the zero
spatial motion to a unit-orientation transform returns it unchanged, adding
the zero motion to any spatial motion returns that motion unchanged, and the
transform stays unchanged under any number of such ticks. -/
theorem claim5_zero_motion_fixed_point (t : SpatialTransform)
    (h : t.angular.normSq = 1) :
    t.addMotion SpatialMotion.zero = t ∧
    (∀ m : SpatialMotion, m.add SpatialMotion.zero = m) ∧
    (∀ n : ℕ, (fun s => s.addMotion SpatialMotion.zero)^[n] t = t) := by
  refine ⟨addMotion_zero t h, ?_, ?_⟩
  · intro m
    apply motion_ext_inner
    funext i
    show m.inner i + 0 = m.inner i
    rw [add_zero]
  · intro n
    induction n with
    | zero => rfl
    | succ k ih => rw [Function.iterate_succ_apply, addMotion_zero t h, ih]

/-- Witness for C5 at the identity transform. -/
theorem claim5_witness :
    (SpatialTransform.new Quat.identity (v3 0 0 0)).angular.normSq = 1 ∧
    (SpatialTransform.new Quat.identity (v3 0 0 0)).addMotion
        SpatialMotion.zero = SpatialTransform.new Quat.identity (v3 0 0 0) := by
  have h : (SpatialTransform.new Quat.identity (v3 0 0 0)).angular.normSq = 1 := by
    have e : (SpatialTransform.new Quat.identity (v3 0 0 0)).angular =
        Quat.identity := rfl
    rw [e]
    norm_num [Quat.normSq, Quat.identity]
  exact ⟨h, (claim5_zero_motion_fixed_point _ h).1⟩

/-! ### Claims C3 and C7: inertia multiply/divide and construction -/

lemma motion_ext_by_parts {a b : SpatialMotion}
    (h1 : a.angular = b.angular) (h2 : a.linear = b.linear) : a = b := by
  apply motion_ext_inner
  funext i
  rcases i with ⟨iv, hi⟩
  interval_cases iv
  · exact congrFun h1 ⟨0, by omega⟩
  · exact congrFun h1 ⟨1, by omega⟩
  · exact congrFun h1 ⟨2, by omega⟩
  · exact congrFun h2 ⟨0, by omega⟩
  · exact congrFun h2 ⟨1, by omega⟩
  · exact congrFun h2 ⟨2, by omega⟩

/-- Counterexample to claim C3 as stated: the inertia with mass `1`, diagonal
inertia `(1,1,1)` (both positive, as the claim requires) and momentum
`(1,0,0)` does not satisfy the round-trip law — multiplying the motion with
linear velocity `(0,1,0)` by the inertia and dividing back changes the
motion, because `Div` ignores the momentum cross-coupling that `Mul` adds. -/
theorem claim3_counterexample :
    0 < (SpatialInertia.new (v3 1 1 1) (v3 1 0 0) 1).mass ∧
    0 < (SpatialInertia.new (v3 1 1 1) (v3 1 0 0) 1).inertia_diag 0 ∧
    0 < (SpatialInertia.new (v3 1 1 1) (v3 1 0 0) 1).inertia_diag 1 ∧
    0 < (SpatialInertia.new (v3 1 1 1) (v3 1 0 0) 1).inertia_diag 2 ∧
    ((SpatialInertia.new (v3 1 1 1) (v3 1 0 0) 1).mulMotion
        (SpatialMotion.new (v3 0 0 0) (v3 0 1 0))).divInertia
        (SpatialInertia.new (v3 1 1 1) (v3 1 0 0) 1) ≠
      SpatialMotion.new (v3 0 0 0) (v3 0 1 0) := by
  refine ⟨by norm_num [show (SpatialInertia.new (v3 1 1 1) (v3 1 0 0) 1).mass
      = 1 from rfl], by norm_num [show (SpatialInertia.new (v3 1 1 1)
      (v3 1 0 0) 1).inertia_diag 0 = 1 from rfl],
    by norm_num [show (SpatialInertia.new (v3 1 1 1)
      (v3 1 0 0) 1).inertia_diag 1 = 1 from rfl],
    by norm_num [show (SpatialInertia.new (v3 1 1 1)
      (v3 1 0 0) 1).inertia_diag 2 = 1 from rfl], ?_⟩
  intro h
  have hcomp := congrFun (congrArg SpatialMotion.angular h) 2
  rw [show ((SpatialInertia.new (v3 1 1 1) (v3 1 0 0) 1).mulMotion
      (SpatialMotion.new (v3 0 0 0) (v3 0 1 0))).divInertia
      (SpatialInertia.new (v3 1 1 1) (v3 1 0 0) 1) =
      SpatialMotion.new (vdivElem (vadd (vmulElem (v3 1 1 1) (v3 0 0 0))
        (cross3 (v3 1 0 0) (v3 0 1 0))) (v3 1 1 1))
        (vdivScalar (vsub (vscale 1 (v3 0 1 0)) (cross3 (v3 1 0 0) (v3 0 0 0)))
          1) from by
      simp only [SpatialInertia.mulMotion, SpatialForce.divInertia,
        inertia_diag_of_new, inertia_momentum_new,
        inertia_mass_new, motion_angular_new,
        motion_linear_new, force_torque_new,
        force_force_new]] at hcomp
  rw [motion_angular_new, motion_angular_new] at hcomp
  have hl : vdivElem (vadd (vmulElem (v3 1 1 1) (v3 0 0 0))
      (cross3 (v3 1 0 0) (v3 0 1 0))) (v3 1 1 1) 2 = 1 := by
    simp only [vdivElem, vadd, vmulElem, cross3, v3_zero, v3_one, v3_two]
    norm_num
  rw [hl, v3_two] at hcomp
  exact one_ne_zero hcomp

/-- Claim C3 (amended): the round-trip `motion ↦ inertia × motion ↦
(inertia × motion) ÷ inertia` is the identity — exactly, over exact
arithmetic — for every inertia with positive mass and positive inertia
diagonal whose momentum is zero (in particular every inertia built by
`SpatialInertia::from_mass`); with nonzero momentum the divide drops the
cross-coupling terms and the law fails. -/
theorem claim3_roundtrip_zero_momentum (I : SpatialInertia) (m : SpatialMotion)
    (hm : 0 < I.mass) (hd0 : 0 < I.inertia_diag 0) (hd1 : 0 < I.inertia_diag 1)
    (hd2 : 0 < I.inertia_diag 2) (hmom : I.momentum = vzero 3) :
    (I.mulMotion m).divInertia I = m := by
  simp only [SpatialInertia.mulMotion, SpatialForce.divInertia, hmom,
    force_torque_new, force_force_new]
  apply motion_ext_by_parts
  · rw [motion_angular_new]
    funext i
    have hz : cross3 (vzero 3) m.linear i = 0 := by
      rcases i with ⟨iv, hi⟩
      interval_cases iv <;>
        simp [cross3, vzero, v3_zero, v3_one, v3_two]
    show (vmulElem I.inertia_diag m.angular i + cross3 (vzero 3) m.linear i) /
        I.inertia_diag i = m.angular i
    rw [hz, add_zero]
    show I.inertia_diag i * m.angular i / I.inertia_diag i = m.angular i
    rcases i with ⟨iv, hi⟩
    interval_cases iv
    · exact mul_div_cancel_left₀ _ hd0.ne'
    · exact mul_div_cancel_left₀ _ hd1.ne'
    · exact mul_div_cancel_left₀ _ hd2.ne'
  · rw [motion_linear_new]
    funext i
    have hz : cross3 (vzero 3) m.angular i = 0 := by
      rcases i with ⟨iv, hi⟩
      interval_cases iv <;>
        simp [cross3, vzero, v3_zero, v3_one, v3_two]
    show (I.mass * m.linear i - cross3 (vzero 3) m.angular i) / I.mass =
      m.linear i
    rw [hz, sub_zero]
    exact mul_div_cancel_left₀ _ hm.ne'

/-- Witness for the amended C3 at a concrete positive inertia with zero
momentum. -/
theorem claim3_witness :
    0 < (SpatialInertia.new (v3 2 3 4) (vzero 3) 5).mass ∧
    ((SpatialInertia.new (v3 2 3 4) (vzero 3) 5).mulMotion
        (SpatialMotion.new (v3 1 2 3) (v3 4 5 6))).divInertia
        (SpatialInertia.new (v3 2 3 4) (vzero 3) 5) =
      SpatialMotion.new (v3 1 2 3) (v3 4 5 6) := by
  constructor
  · norm_num [show (SpatialInertia.new (v3 2 3 4) (vzero 3) 5).mass = 5
      from rfl]
  · exact claim3_roundtrip_zero_momentum _ _
      (by norm_num [show (SpatialInertia.new (v3 2 3 4) (vzero 3) 5).mass = 5
        from rfl])
      (by norm_num [show (SpatialInertia.new (v3 2 3 4) (vzero 3)
        5).inertia_diag 0 = 2 from rfl])
      (by norm_num [show (SpatialInertia.new (v3 2 3 4) (vzero 3)
        5).inertia_diag 1 = 3 from rfl])
      (by norm_num [show (SpatialInertia.new (v3 2 3 4) (vzero 3)
        5).inertia_diag 2 = 4 from rfl])
      (inertia_momentum_new _ _ _)

/-- Counterexample to claim C7 as stated: `SpatialInertia::new` performs no
validation — constructing with mass `-1`, or with a non-positive inertia
diagonal entry, succeeds and produces a spatial inertia value carrying that
component verbatim, instead of failing. -/
theorem claim7_counterexample :
    (SpatialInertia.new (v3 1 1 1) (v3 0 0 0) (-1)).mass = -1 ∧
    (SpatialInertia.new (v3 (-2) 1 1) (v3 0 0 0) 3).inertia_diag 0 = -2 :=
  ⟨rfl, rfl⟩

/-- Claim C7 (amended): `SpatialInertia::new` is total and validates
nothing — for every input with a non-positive mass or a non-positive
inertia-diagonal entry the construction still succeeds, and the resulting
inertia stores the offending components verbatim: nothing is clamped,
defaulted or masked, and no error is surfaced. -/
theorem claim7_construction_never_fails (d mo : Vec 3) (mass : ℝ)
    (_h : mass ≤ 0 ∨ d 0 ≤ 0 ∨ d 1 ≤ 0 ∨ d 2 ≤ 0) :
    (SpatialInertia.new d mo mass).mass = mass ∧
    (SpatialInertia.new d mo mass).inertia_diag = d ∧
    (SpatialInertia.new d mo mass).momentum = mo :=
  ⟨inertia_mass_new d mo mass, inertia_diag_of_new d mo mass,
   inertia_momentum_new d mo mass⟩

/-- Witness for the amended C7 at mass `-1`. -/
theorem claim7_witness :
    ((-1 : ℝ) ≤ 0 ∨ v3 1 1 1 0 ≤ 0 ∨ v3 1 1 1 1 ≤ 0 ∨ v3 1 1 1 2 ≤ 0) ∧
    (SpatialInertia.new (v3 1 1 1) (v3 0 0 0) (-1)).mass = -1 :=
  ⟨Or.inl (by norm_num),
   (claim7_construction_never_fails (v3 1 1 1) (v3 0 0 0) (-1)
     (Or.inl (by norm_num))).1⟩


/-! ### Claim C2: transform composition and the 45-degree example -/

/-- Transform A of the spec's example: rotation by 45 degrees about Z and
translation `(1,0,0)`. -/
def transformA : SpatialTransform :=
  SpatialTransform.new (Quat.fromAxisAngle (v3 0 0 1) (Real.pi / 4)) (v3 1 0 0)

/-- Transform B of the spec's example: rotation by -45 degrees about Z and
translation `(0,2,0)`. -/
def transformB : SpatialTransform :=
  SpatialTransform.new (Quat.fromAxisAngle (v3 0 0 1) (-(Real.pi / 4)))
    (v3 0 2 0)

lemma rotate_z_quat (s c t : ℝ) :
    Quat.rotate ⟨0, 0, s, c⟩ (v3 0 t 0) =
      v3 (-(2 * s * c * t)) ((c ^ 2 - s ^ 2) * t) 0 := by
  funext i
  rcases i with ⟨iv, hi⟩
  interval_cases iv <;>
    simp [Quat.rotate, Quat.mul, Quat.conj, Quat.pure, v3] <;> ring

lemma transformA_angular :
    transformA.angular =
      ⟨0, 0, Real.sin (Real.pi / 8), Real.cos (Real.pi / 8)⟩ := by
  rw [transformA, transform_angular_new]
  have harg : Real.pi / 4 / 2 = Real.pi / 8 := by ring
  apply Quat.ext_comps <;>
    simp [Quat.fromAxisAngle, v3_zero, v3_one, v3_two, harg]

lemma comp_linear_exact :
    (transformA.mul transformB).linear = v3 (1 - Real.sqrt 2) (Real.sqrt 2) 0 := by
  have hlinA : transformA.linear = v3 1 0 0 :=
    transform_linear_new _ _
  have hlinB : transformB.linear = v3 0 2 0 :=
    transform_linear_new _ _
  rw [SpatialTransform.mul, transform_linear_new, transformA_angular,
    hlinA, hlinB, rotate_z_quat]
  have h2sc : 2 * Real.sin (Real.pi / 8) * Real.cos (Real.pi / 8) =
      Real.sqrt 2 / 2 := by
    rw [← Real.sin_two_mul, show 2 * (Real.pi / 8) = Real.pi / 4 by ring]
    exact Real.sin_pi_div_four
  have hc2s2 : Real.cos (Real.pi / 8) ^ 2 - Real.sin (Real.pi / 8) ^ 2 =
      Real.sqrt 2 / 2 := by
    rw [← Real.cos_two_mul', show 2 * (Real.pi / 8) = Real.pi / 4 by ring]
    exact Real.cos_pi_div_four
  funext i
  rcases i with ⟨iv, hi⟩
  interval_cases iv
  · show (1:ℝ) + -(2 * Real.sin (Real.pi / 8) * Real.cos (Real.pi / 8) * 2) =
      1 - Real.sqrt 2
    linear_combination (-2 : ℝ) * h2sc
  · show (0:ℝ) + (Real.cos (Real.pi / 8) ^ 2 - Real.sin (Real.pi / 8) ^ 2) * 2 =
      Real.sqrt 2
    linear_combination (2 : ℝ) * hc2s2
  · show (0:ℝ) + 0 = 0
    norm_num

/-- Claim C2: for all spatial transforms the product composes the rotations
by the quaternion product and sets the translation to the left translation
plus the left rotation applied to the right translation; and the spec's
concrete example — A rotating 45 degrees about Z translating `(1,0,0)`,
B rotating -45 degrees about Z translating `(0,2,0)` — composes to a linear
part within `1e-9` of `(-0.4142135624, 1.4142135624, 0.0)`. -/
theorem claim2_transform_composition :
    (∀ a b : SpatialTransform,
      (a.mul b).angular = a.angular.mul b.angular ∧
      (a.mul b).linear = vadd a.linear (a.angular.rotate b.linear)) ∧
    |(transformA.mul transformB).linear 0 - (-0.4142135624)| ≤ 1e-9 ∧
    |(transformA.mul transformB).linear 1 - 1.4142135624| ≤ 1e-9 ∧
    |(transformA.mul transformB).linear 2 - 0| ≤ 1e-9 := by
  have hlow : (1.4142135623 : ℝ) < Real.sqrt 2 :=
    (Real.lt_sqrt (by norm_num)).mpr (by norm_num)
  have hhigh : Real.sqrt 2 < 1.4142135624 :=
    (Real.sqrt_lt' (by norm_num)).mpr (by norm_num)
  refine ⟨fun a b => ⟨?_, ?_⟩, ?_, ?_, ?_⟩
  · rw [SpatialTransform.mul, transform_angular_new]
  · rw [SpatialTransform.mul, transform_linear_new]
  · rw [comp_linear_exact, v3_zero, abs_le]
    constructor <;> linarith
  · rw [comp_linear_exact, v3_one, abs_le]
    constructor <;> linarith
  · rw [comp_linear_exact, v3_two, abs_le]
    constructor <;> norm_num


/-! ### Claim C6: integrating constant angular velocity for 20 ticks -/

/-- The constant per-tick motion of the integration test: angular velocity
`(0, 0, 0.25 / 20)` — that is `(0, 0, 0.0125)` — and zero linear velocity. -/
def tickMotion : SpatialMotion :=
  SpatialMotion.new (v3 0 0 (0.25 / 20)) (v3 0 0 0)

/-- The identity-orientation, zero-position start transform of the
integration test. -/
def startTransform : SpatialTransform :=
  SpatialTransform.new Quat.identity (v3 0 0 0)

/-- Integer pair sequence carrying the exact (unnormalized) z and w
orientation components across ticks: after `n` ticks the orientation is
`(0, 0, (abSeq n).1 / sqrt 25601 ^ n, (abSeq n).2 / sqrt 25601 ^ n)`. -/
def abSeq : ℕ → ℤ × ℤ
  | 0 => (0, 1)
  | n + 1 => (160 * (abSeq n).1 + (abSeq n).2, 160 * (abSeq n).2 - (abSeq n).1)

lemma abSeq_zero : abSeq 0 = (0, 1) := rfl

lemma abSeq_succ (n : ℕ) :
    abSeq (n + 1) =
      (160 * (abSeq n).1 + (abSeq n).2, 160 * (abSeq n).2 - (abSeq n).1) := rfl

lemma abSeq_sq (n : ℕ) :
    ((abSeq n).1) ^ 2 + ((abSeq n).2) ^ 2 = 25601 ^ n := by
  induction n with
  | zero => norm_num [abSeq_zero]
  | succ k ih =>
    rw [abSeq_succ]
    show (160 * (abSeq k).1 + (abSeq k).2) ^ 2 +
      (160 * (abSeq k).2 - (abSeq k).1) ^ 2 = 25601 ^ (k + 1)
    rw [pow_succ]
    linear_combination (25601 : ℤ) * ih

lemma abSeq_one : abSeq 1 = (1, 160) := by
  rw [show (1:ℕ) = 0 + 1 from rfl, abSeq_succ, abSeq_zero]
  norm_num

lemma abSeq_two : abSeq 2 = (320, 25599) := by
  rw [show (2:ℕ) = 1 + 1 from rfl, abSeq_succ, abSeq_one]
  norm_num

lemma abSeq_three : abSeq 3 = (76799, 4095520) := by
  rw [show (3:ℕ) = 2 + 1 from rfl, abSeq_succ, abSeq_two]
  norm_num

lemma abSeq_four : abSeq 4 = (16383360, 655206401) := by
  rw [show (4:ℕ) = 3 + 1 from rfl, abSeq_succ, abSeq_three]
  norm_num

lemma abSeq_five : abSeq 5 = (3276544001, 104816640800) := by
  rw [show (5:ℕ) = 4 + 1 from rfl, abSeq_succ, abSeq_four]
  norm_num

lemma abSeq_six : abSeq 6 = (629063680960, 16767385983999) := by
  rw [show (6:ℕ) = 5 + 1 from rfl, abSeq_succ, abSeq_five]
  norm_num

lemma abSeq_seven : abSeq 7 = (117417574937599, 2682152693758880) := by
  rw [show (7:ℕ) = 6 + 1 from rfl, abSeq_succ, abSeq_six]
  norm_num

lemma abSeq_eight : abSeq 8 = (21468964683774720, 429027013426483201) := by
  rw [show (8:ℕ) = 7 + 1 from rfl, abSeq_succ, abSeq_seven]
  norm_num

lemma abSeq_nine : abSeq 9 = (3864061362830438401, 68622853183553537440) := by
  rw [show (9:ℕ) = 8 + 1 from rfl, abSeq_succ, abSeq_eight]
  norm_num

lemma abSeq_ten : abSeq 10 = (686872671236423681600, 10975792448005735551999) := by
  rw [show (10:ℕ) = 9 + 1 from rfl, abSeq_succ, abSeq_nine]
  norm_num

lemma abSeq_eleven : abSeq 11 = (120875419845833524607999, 1755439919009681264638240) := by
  rw [show (11:ℕ) = 10 + 1 from rfl, abSeq_succ, abSeq_ten]
  norm_num

lemma abSeq_twelve : abSeq 12 = (21095507094343045201918080, 280749511621703168817510401) := by
  rw [show (12:ℕ) = 11 + 1 from rfl, abSeq_succ, abSeq_eleven]
  norm_num

lemma abSeq_thirteen : abSeq 13 = (3656030646716590401124403201, 44898826352378163965599746080) := by
  rw [show (13:ℕ) = 12 + 1 from rfl, abSeq_succ, abSeq_twelve]
  norm_num

lemma abSeq_fourteen : abSeq 14 = (629863729827032628145504258240, 7180156185733789644094834969599) := by
  rw [show (14:ℕ) = 13 + 1 from rfl, abSeq_succ, abSeq_thirteen]
  norm_num

lemma abSeq_fifteen : abSeq 15 = (107958352958059010147375516287999, 1148195125987579310427028090877600) := by
  rw [show (15:ℕ) = 14 + 1 from rfl, abSeq_succ, abSeq_fourteen]
  norm_num

lemma abSeq_sixteen : abSeq 16 = (18421531599277020934007110696957440, 183603261805054630658177119024128001) := by
  rw [show (16:ℕ) = 15 + 1 from rfl, abSeq_succ, abSeq_fifteen]
  norm_num

lemma abSeq_seventeen : abSeq 17 = (3131048317689377980099314830537318401, 29358100357209463884374331933163522720) := by
  rw [show (17:ℕ) = 16 + 1 from rfl, abSeq_succ, abSeq_sixteen]
  norm_num

lemma abSeq_eighteen : abSeq 18 = (530325831187509940700264704819134466880, 4694165008835824843519793794475626316799) := by
  rw [show (18:ℕ) = 17 + 1 from rfl, abSeq_succ, abSeq_seventeen]
  norm_num

lemma abSeq_nineteen : abSeq 19 = (89546297998837415355562146565537141017599, 750536075582544465022466742411281076220960) := by
  rw [show (19:ℕ) = 18 + 1 from rfl, abSeq_succ, abSeq_eighteen]
  norm_num

lemma abSeq_twenty : abSeq 20 = (15077943755396530921912410192897223639036800, 119996225795208276988239116639239435054336001) := by
  rw [show (20:ℕ) = 19 + 1 from rfl, abSeq_succ, abSeq_nineteen]
  norm_num


lemma sqrt25601_sq : Real.sqrt 25601 ^ 2 = 25601 :=
  Real.sq_sqrt (by norm_num)

lemma sqrt25601_pos : 0 < Real.sqrt 25601 :=
  Real.sqrt_pos.mpr (by norm_num)

lemma sqrt25601_pow_sq (k : ℕ) :
    (Real.sqrt 25601 ^ k) ^ 2 = 25601 ^ k := by
  rw [← pow_mul, mul_comm, pow_mul, sqrt25601_sq]

lemma vadd_zero3 : vadd (v3 0 0 0) (v3 0 0 0) = v3 0 0 0 := by
  funext i
  rcases i with ⟨iv, hi⟩
  interval_cases iv <;> simp [vadd, v3]

/-- One integration step in closed form: the orientation components follow
the integer recurrence, with one extra factor of `sqrt 25601` in the
denominator per tick. -/
lemma tick_step (A B : ℤ) (k : ℕ)
    (hAB : (A : ℝ) ^ 2 + (B : ℝ) ^ 2 = 25601 ^ k) :
    (SpatialTransform.new ⟨0, 0, (A : ℝ) / Real.sqrt 25601 ^ k,
        (B : ℝ) / Real.sqrt 25601 ^ k⟩ (v3 0 0 0)).addMotion tickMotion =
      SpatialTransform.new
        ⟨0, 0, ((160 * A + B : ℤ) : ℝ) / Real.sqrt 25601 ^ (k + 1),
         ((160 * B - A : ℤ) : ℝ) / Real.sqrt 25601 ^ (k + 1)⟩ (v3 0 0 0) := by
  have hR0 : (Real.sqrt 25601 ^ k) ≠ 0 := (pow_pos sqrt25601_pos k).ne'
  have hr0 : Real.sqrt 25601 ≠ 0 := sqrt25601_pos.ne'
  have hang : tickMotion.angular = v3 0 0 (0.25 / 20) :=
    motion_angular_new _ _
  have hlin : tickMotion.linear = v3 0 0 0 := motion_linear_new _ _
  simp only [SpatialTransform.addMotion]
  rw [transform_angular_new, transform_linear_new, hang, hlin,
    vadd_zero3]
  have hhoQ : Quat.ofVec (vcat (vdivScalar (v3 0 0 (0.25 / 20)) 2) (v1 0)) =
      ⟨0, 0, 1 / 160, 0⟩ := by
    have h0 : Quat.ofVec (vcat (vdivScalar (v3 0 0 (0.25 / 20)) 2) (v1 0)) =
        ⟨(0 : ℝ) / 2, (0 : ℝ) / 2, (0.25 / 20 : ℝ) / 2, 0⟩ := rfl
    rw [h0]
    apply Quat.ext_comps <;> norm_num
  rw [hhoQ]
  have hmul : Quat.mul ⟨0, 0, 1 / 160, 0⟩
      ⟨0, 0, (A : ℝ) / Real.sqrt 25601 ^ k, (B : ℝ) / Real.sqrt 25601 ^ k⟩ =
      ⟨0, 0, (B : ℝ) / Real.sqrt 25601 ^ k / 160,
       -((A : ℝ) / Real.sqrt 25601 ^ k / 160)⟩ := by
    apply Quat.ext_comps <;> simp only [Quat.mul] <;> ring
  rw [hmul]
  have hadd : Quat.add
      ⟨0, 0, (A : ℝ) / Real.sqrt 25601 ^ k, (B : ℝ) / Real.sqrt 25601 ^ k⟩
      ⟨0, 0, (B : ℝ) / Real.sqrt 25601 ^ k / 160,
       -((A : ℝ) / Real.sqrt 25601 ^ k / 160)⟩ =
      ⟨0, 0,
       (A : ℝ) / Real.sqrt 25601 ^ k + (B : ℝ) / Real.sqrt 25601 ^ k / 160,
       (B : ℝ) / Real.sqrt 25601 ^ k - (A : ℝ) / Real.sqrt 25601 ^ k / 160⟩ := by
    apply Quat.ext_comps <;> simp only [Quat.add] <;> ring
  rw [hadd]
  have hnsq : (⟨0, 0,
      (A : ℝ) / Real.sqrt 25601 ^ k + (B : ℝ) / Real.sqrt 25601 ^ k / 160,
      (B : ℝ) / Real.sqrt 25601 ^ k - (A : ℝ) / Real.sqrt 25601 ^ k / 160⟩ :
        Quat).normSq = 25601 / 25600 := by
    have h1 : (⟨0, 0,
        (A : ℝ) / Real.sqrt 25601 ^ k + (B : ℝ) / Real.sqrt 25601 ^ k / 160,
        (B : ℝ) / Real.sqrt 25601 ^ k - (A : ℝ) / Real.sqrt 25601 ^ k / 160⟩ :
          Quat).normSq =
        ((A : ℝ) ^ 2 + (B : ℝ) ^ 2) * (25601 / 25600) /
          (Real.sqrt 25601 ^ k) ^ 2 := by
      simp only [Quat.normSq]
      field_simp
      ring
    rw [h1, hAB, sqrt25601_pow_sq]
    exact mul_div_cancel_left₀ _ (by positivity)
  have hnorm : (⟨0, 0,
      (A : ℝ) / Real.sqrt 25601 ^ k + (B : ℝ) / Real.sqrt 25601 ^ k / 160,
      (B : ℝ) / Real.sqrt 25601 ^ k - (A : ℝ) / Real.sqrt 25601 ^ k / 160⟩ :
        Quat).norm = Real.sqrt 25601 / 160 := by
    rw [Quat.norm, hnsq]
    have h2 : ((Real.sqrt 25601 / 160 : ℝ)) ^ 2 = 25601 / 25600 := by
      rw [div_pow, sqrt25601_sq]
      norm_num
    rw [← h2, Real.sqrt_sq (by positivity)]
  rw [Quat.normalize, hnorm]
  congr 1
  apply Quat.ext_comps
  · simp [Quat.smul]
  · simp [Quat.smul]
  · simp only [Quat.smul]
    push_cast
    rw [pow_succ]
    field_simp
    ring
  · simp only [Quat.smul]
    push_cast
    rw [pow_succ]
    field_simp
    ring

lemma iterate_tick (n : ℕ) :
    (fun t => SpatialTransform.addMotion t tickMotion)^[n] startTransform =
      SpatialTransform.new
        ⟨0, 0, ((abSeq n).1 : ℝ) / Real.sqrt 25601 ^ n,
         ((abSeq n).2 : ℝ) / Real.sqrt 25601 ^ n⟩ (v3 0 0 0) := by
  induction n with
  | zero =>
    have h : (⟨0, 0, ((abSeq 0).1 : ℝ) / Real.sqrt 25601 ^ 0,
        ((abSeq 0).2 : ℝ) / Real.sqrt 25601 ^ 0⟩ : Quat) = Quat.identity := by
      rw [abSeq_zero]
      apply Quat.ext_comps <;> norm_num [Quat.identity]
    simp only [Function.iterate_zero, id_eq]
    rw [startTransform, h]
  | succ k ih =>
    rw [Function.iterate_succ_apply', ih]
    have hAB : ((abSeq k).1 : ℝ) ^ 2 + ((abSeq k).2 : ℝ) ^ 2 =
        25601 ^ k := by
      exact_mod_cast abSeq_sq k
    rw [tick_step _ _ _ hAB, abSeq_succ]

lemma target_quat :
    Quat.fromAxisAngle (v3 0 0 1) 0.25 =
      ⟨0, 0, Real.sin (1 / 8 : ℝ), Real.cos (1 / 8 : ℝ)⟩ := by
  have harg : (0.25 : ℝ) / 2 = 1 / 8 := by norm_num
  apply Quat.ext_comps <;>
    simp [Quat.fromAxisAngle, v3_zero, v3_one, v3_two, harg]

lemma sin_sixteenth_bounds :
    (130985 / 2097152 : ℝ) ≤ Real.sin (1 / 16) ∧
    Real.sin (1 / 16) ≤ 392965 / 6291456 := by
  have hb := Real.sin_bound (x := 1 / 16) (by rw [abs_of_nonneg] <;> norm_num)
  rw [abs_le] at hb
  rw [abs_of_nonneg (by norm_num)] at hb
  constructor <;> [linarith [hb.1]; linarith [hb.2]]

lemma cos_sixteenth_bounds :
    (6279163 / 6291456 : ℝ) ≤ Real.cos (1 / 16) ∧
    Real.cos (1 / 16) ≤ 6279173 / 6291456 := by
  have hb := Real.cos_bound (x := 1 / 16) (by rw [abs_of_nonneg] <;> norm_num)
  rw [abs_le] at hb
  rw [abs_of_nonneg (by norm_num)] at hb
  constructor <;> [linarith [hb.1]; linarith [hb.2]]

lemma sin_eighth_bounds :
    (0.1246729 : ℝ) ≤ Real.sin (1 / 8) ∧
    Real.sin (1 / 8) ≤ 0.1246764 := by
  have hs := sin_sixteenth_bounds
  have hc := cos_sixteenth_bounds
  have hdm : Real.sin (1 / 8 : ℝ) =
      2 * Real.sin (1 / 16) * Real.cos (1 / 16) := by
    rw [show (1 / 8 : ℝ) = 2 * (1 / 16) by norm_num, Real.sin_two_mul]
  rw [hdm]
  constructor <;> nlinarith [hs.1, hs.2, hc.1, hc.2]

lemma cos_eighth_bounds :
    (0.9921963 : ℝ) ≤ Real.cos (1 / 8) ∧
    Real.cos (1 / 8) ≤ 0.9921989 := by
  have hs := sin_sixteenth_bounds
  have hdm : Real.cos (1 / 8 : ℝ) = 1 - 2 * Real.sin (1 / 16) ^ 2 := by
    rw [show (1 / 8 : ℝ) = 2 * (1 / 16) by norm_num, Real.cos_two_mul']
    have hpy := Real.sin_sq_add_cos_sq (1 / 16 : ℝ)
    linarith
  rw [hdm]
  constructor <;> nlinarith [hs.1, hs.2]

/-- Claim C6: adding the spatial motion with angular part `(0, 0, 0.0125)`
and zero linear part to the identity-orientation transform 20 successive
times yields an orientation within `1e-5`, componentwise, of the quaternion
for a 0.25-radian rotation about the Z axis. -/
theorem claim6_twenty_tick_rotation :
    |((fun t => SpatialTransform.addMotion t tickMotion)^[20]
        startTransform).angular.x - (Quat.fromAxisAngle (v3 0 0 1) 0.25).x|
      ≤ 1e-5 ∧
    |((fun t => SpatialTransform.addMotion t tickMotion)^[20]
        startTransform).angular.y - (Quat.fromAxisAngle (v3 0 0 1) 0.25).y|
      ≤ 1e-5 ∧
    |((fun t => SpatialTransform.addMotion t tickMotion)^[20]
        startTransform).angular.z - (Quat.fromAxisAngle (v3 0 0 1) 0.25).z|
      ≤ 1e-5 ∧
    |((fun t => SpatialTransform.addMotion t tickMotion)^[20]
        startTransform).angular.w - (Quat.fromAxisAngle (v3 0 0 1) 0.25).w|
      ≤ 1e-5 := by
  rw [iterate_tick 20, transform_angular_new, target_quat, abSeq_twenty]
  have hpow : Real.sqrt 25601 ^ 20 = (25601 : ℝ) ^ 10 := by
    rw [show (20 : ℕ) = 2 * 10 from rfl, pow_mul, sqrt25601_sq]
  have hD : ((25601 : ℝ)) ^ 10 =
      120939813928191197333023891168082031411456001 := by
    norm_num
  refine ⟨by norm_num, by norm_num, ?_, ?_⟩
  · show |(((15077943755396530921912410192897223639036800 : ℤ) : ℝ) /
        Real.sqrt 25601 ^ 20 - Real.sin (1 / 8))| ≤ 1e-5
    rw [hpow, hD]
    have hs := sin_eighth_bounds
    rw [abs_le]
    constructor <;> [linarith [hs.2]; linarith [hs.1]]
  · show |(((119996225795208276988239116639239435054336001 : ℤ) : ℝ) /
        Real.sqrt 25601 ^ 20 - Real.cos (1 / 8))| ≤ 1e-5
    rw [hpow, hD]
    have hc := cos_eighth_bounds
    rw [abs_le]
    constructor <;> [linarith [hc.2]; linarith [hc.1]]


/-! ### Claim C8: the Monte Carlo driver (modelled from the spec) -/

/-- Modelled from the spec: the closed variant set of sampling distributions,
initially `Normal(mean, stddev)`.  The driver itself
(`paracosm::monte_carlo`) is not among the provided sources — only its
caller `examples/monte_carlo.rs` is — so this section models it from the
spec. -/
inductive DistributionSpec where
  | normal (mean stddev : ℝ)

/-- Modelled from the spec: the configuration error raised on a declared
variable count / template parameter count mismatch. -/
inductive ConfigurationError where
  | arityMismatch (declared supplied : ℕ)

/-- Modelled from the spec: the record `(trialIndex, sampledValues, outcome)`
of one Monte Carlo trial. -/
structure TrialRecord (α : Type) where
  trialIndex : ℕ
  sampledValues : List ℝ
  outcome : α

/-- Modelled from the spec: a Monte Carlo configuration — the ordered list of
declared variables and a job template whose parameter count is
`templateArity`. -/
structure MonteCarloConfig (α : Type) where
  vars : List DistributionSpec
  templateArity : ℕ
  template : List ℝ → α

/-- Modelled from the spec: the sampled values of one trial — one draw per
declared variable from the seeded deterministic generator `draw`. -/
def sampleDraws (nVars : ℕ) (draw : ℕ → ℕ → ℕ → ℝ) (seed i : ℕ) : List ℝ :=
  (List.range nVars).map fun v => draw seed i v

/-- Modelled from the spec: `run(trialCount, seed)` — validates that the
declared variable count equals the template parameter count before any trial
executes; on a mismatch it reports a `ConfigurationError` and runs zero
trials, otherwise for each trial index in `[0, trialCount)` it draws one
sample per declared variable, invokes the template on the sampled values and
records `(trialIndex, sampledValues, outcome)`. -/
def MonteCarlo.run {α : Type} (cfg : MonteCarloConfig α)
    (trialCount seed : ℕ) (draw : ℕ → ℕ → ℕ → ℝ) :
    Except ConfigurationError (List (TrialRecord α)) :=
  if cfg.vars.length = cfg.templateArity then
    Except.ok ((List.range trialCount).map fun i =>
      ⟨i, sampleDraws cfg.vars.length draw seed i,
       cfg.template (sampleDraws cfg.vars.length draw seed i)⟩)
  else
    Except.error
      (ConfigurationError.arityMismatch cfg.vars.length cfg.templateArity)

/-- Claim C8: `run` validates arity before any trial executes — on a
mismatch it fails with a `ConfigurationError` and produces zero trial
records; otherwise it produces exactly `trialCount` records, the `j`-th
carrying trial index `j`, the values sampled for trial `j`, and the
template's outcome on those values. -/
theorem claim8_monte_carlo_run_arity {α : Type} (cfg : MonteCarloConfig α)
    (trialCount seed : ℕ) (draw : ℕ → ℕ → ℕ → ℝ) :
    (cfg.vars.length ≠ cfg.templateArity →
      MonteCarlo.run cfg trialCount seed draw =
        Except.error (ConfigurationError.arityMismatch cfg.vars.length
          cfg.templateArity)) ∧
    (cfg.vars.length = cfg.templateArity →
      ∃ recs : List (TrialRecord α),
        MonteCarlo.run cfg trialCount seed draw = Except.ok recs ∧
        recs.length = trialCount ∧
        ∀ j : Fin recs.length,
          recs.get j = ⟨j.1, sampleDraws cfg.vars.length draw seed j.1,
            cfg.template (sampleDraws cfg.vars.length draw seed j.1)⟩) := by
  constructor
  · intro hne
    rw [MonteCarlo.run, if_neg hne]
  · intro heq
    refine ⟨(List.range trialCount).map fun i =>
      ⟨i, sampleDraws cfg.vars.length draw seed i,
       cfg.template (sampleDraws cfg.vars.length draw seed i)⟩,
      by rw [MonteCarlo.run, if_pos heq], by simp, ?_⟩
    intro j
    simp [List.get_eq_getElem, List.getElem_map]

/-- Witness for C8: declaring 2 variables against a 1-parameter template
makes `run` fail with a ConfigurationError and zero trial records. -/
theorem claim8_witness :
    (([DistributionSpec.normal 1 0.2, DistributionSpec.normal 0 1] :
        List DistributionSpec).length ≠ 1) ∧
    MonteCarlo.run
      (⟨[DistributionSpec.normal 1 0.2, DistributionSpec.normal 0 1], 1,
        fun _ => (0 : ℝ)⟩ : MonteCarloConfig ℝ) 1000 42 (fun _ _ _ => 0) =
      Except.error (ConfigurationError.arityMismatch 2 1) := by
  have hne : (([DistributionSpec.normal 1 0.2, DistributionSpec.normal 0 1] :
      List DistributionSpec).length ≠ 1) := by simp
  refine ⟨hne, ?_⟩
  have h := (claim8_monte_carlo_run_arity
    (⟨[DistributionSpec.normal 1 0.2, DistributionSpec.normal 0 1], 1,
      fun _ => (0 : ℝ)⟩ : MonteCarloConfig ℝ) 1000 42 (fun _ _ _ => 0)).1 hne
  simpa using h

end

end Elodin
